import Mathlib

/-!
Shallow embedding of `src/src/js/index.ts` (the `useResource` hook) and its
util module (`filter`), from machiato32/react-resource-hook.

JS values crossing the wire are modelled by `Value` (primitives only; the
claims under study only involve primitive fields).  A JS object is an ordered
association list of fields; JS property access, `Object.assign`, object
spread and `Object.entries`/`Object.fromEntries` are modelled field-by-field.
The hook's asynchronous operations are modelled as pure functions from their
inputs (configuration, current override, current state, the HTTP response
data the server would return) to the list of HTTP requests they issue and
the state they leave behind.  A result of `none` for a state marks a point
where the JavaScript would throw a `TypeError` (e.g. `Object.assign(null, x)`
or `.filter` on a non-array).
-/

namespace ReactResourceHook

/-- A primitive JS value: `undefined`, `null`, a string or a number
(numbers are modelled as integers; the claims involve no fractional ids). -/
inductive Value where
  | undef : Value
  | null : Value
  | str : String → Value
  | num : Int → Value
  deriving DecidableEq, Repr

/-- A JS object: an ordered list of fields (key, value).  Real JS objects
have unique keys; operations below use first-match lookup, which coincides
with JS semantics on unique-key objects. -/
abbrev Obj := List (String × Value)

/-- JS truthiness of a primitive value (`0`, `""`, `null`, `undefined` are
falsy). -/
def Value.truthy : Value → Bool
  | .str s => s != ""
  | .num n => n != 0
  | _ => false

/-- Truthiness of an optional bound id (`undefined` when absent), as used by
the source's `isArray` check (`!id`) and `if (id)`. -/
def truthyOpt : Option Value → Bool
  | none => false
  | some v => v.truthy

/-- Property lookup `o[k]`: the value of the first field named `k`, and JS
`undefined` when the field is absent. -/
def jsGet (o : Obj) (k : String) : Value :=
  ((o.find? (fun p => p.1 == k)).map Prod.snd).getD Value.undef

/-- Whether the object has a field named `k` (`k in o`). -/
def hasField (o : Obj) (k : String) : Bool :=
  o.any (fun p => p.1 == k)

/-- `Object.assign(t, s)` / object spread `{...t, ...s}`: fields of `t` keep
their position but take the value from `s` when `s` also has the key; fields
of `s` absent from `t` are appended in order. -/
def assign (t s : Obj) : Obj :=
  t.map (fun p => (p.1, if hasField s p.1 then jsGet s p.1 else p.2)) ++
    s.filter (fun p => !(hasField t p.1))

/-- util.ts `filter`: drop every field whose value is `undefined`
(`Object.fromEntries(Object.entries(input).filter(([,value]) => value !== undefined))`). -/
def filter (input : Obj) : Obj :=
  input.filter (fun p => p.2 != Value.undef)

/-- The three update methods of the hook. -/
inductive UpdateMethod where
  | onSuccess : UpdateMethod
  | immediate : UpdateMethod
  | localOnly : UpdateMethod
  deriving DecidableEq, Repr

/-- Truthiness of the `eventOverride` state variable (a string captured from
the `x-socket-event` response header, or `null`), as tested by
`if (!eventOverride)`. -/
def activeOverride : Option String → Bool
  | none => false
  | some s => s != ""

/-- Local state of a binding: an ordered collection (plural mode) or a
nullable single entity (singular mode). -/
inductive RState where
  | list : List Obj → RState
  | single : Option Obj → RState
  deriving DecidableEq, Repr

/-- Default `created` reducer (line 96):
`(item, prev) => prev.find(s => s.id === item.id) ? prev : [...prev, item]`. -/
def createdDefault (item : Obj) (prev : List Obj) : List Obj :=
  if prev.any (fun s => jsGet s "id" == jsGet item "id") then prev
  else prev ++ [item]

/-- `handleCreated` (line 96 via `handle`): a custom `onCreated` handler is
tried first; when it is absent or returns `null`/`undefined` the default
reducer runs. -/
def handleCreated (onCreated : Option (Obj → List Obj → Option (List Obj)))
    (item : Obj) (prev : List Obj) : List Obj :=
  match onCreated with
  | some h => (h item prev).getD (createdDefault item prev)
  | none => createdDefault item prev

/-- Collection branch of the default `updated` reducer (line 97):
`prev.map(s => s.id === item.id ? Object.assign(s, item) : s)`. -/
def updatedListDefault (item : Obj) (prev : List Obj) : List Obj :=
  prev.map (fun s => if jsGet s "id" == jsGet item "id" then assign s item else s)

/-- Default `updated` reducer (line 97).  The branch is chosen by
`isArray`, which tests `!id` (truthiness of the bound id), not the runtime
shape; the binding only ever pairs a truthy id with singular state.  In the
singular branch `Object.assign(prev, item)` throws when `prev` is `null`,
modelled as `none`; the remaining combinations cannot arise from the hook
and are likewise `none`. -/
def updatedDefault (idOpt : Option Value) (item : Obj) (prev : RState) : Option RState :=
  if truthyOpt idOpt then
    match prev with
    | .single (some o) => some (.single (some (assign o item)))
    | _ => none
  else
    match prev with
    | .list l => some (.list (updatedListDefault item l))
    | _ => none

/-- `handleUpdated` (line 97 via `handle`): custom handler first, default
reducer when it is absent or returns `null`/`undefined`. -/
def handleUpdated (idOpt : Option Value)
    (onUpdated : Option (Obj → RState → Option RState))
    (item : Obj) (prev : RState) : Option RState :=
  match onUpdated with
  | some h =>
    match h item prev with
    | some next => some next
    | none => updatedDefault idOpt item prev
  | none => updatedDefault idOpt item prev

/-- Default collection `destroyed` reducer (line 104):
`prev.filter(s => s.id !== id)`. -/
def destroyedListDefault (delId : Value) (prev : List Obj) : List Obj :=
  prev.filter (fun s => jsGet s "id" != delId)

/-- Result of `handleDestroyed`: the next state (`none` marks a thrown
`TypeError`) together with the ids the custom `onDestroyed` handler was
invoked with. -/
structure DestroyedResult where
  state : Option RState
  onDestroyedCalls : List Value
  deriving DecidableEq, Repr

/-- `handleDestroyed` (lines 98-106).  With a truthy bound id the custom
handler (if any) is invoked with the delivered id and the state is set to
`null`, with no comparison against the bound id.  Otherwise the custom
handler's return value is used when it is not `null`/`undefined`, else the
default filter; `.filter` on a non-array state throws (`none`).  The model
records an invocation whenever a handler is provided; in the singular branch
the handler's return value is discarded by the source. -/
def handleDestroyed (idOpt : Option Value)
    (onDestroyed : Option (Value → List Obj → Option (List Obj)))
    (delId : Value) (prev : RState) : DestroyedResult :=
  let calls := if onDestroyed.isSome then [delId] else []
  if truthyOpt idOpt then
    ⟨some (.single none), calls⟩
  else
    match prev with
    | .list l =>
      let next :=
        match onDestroyed with
        | some h => (h delId l).getD (destroyedListDefault delId l)
        | none => destroyedListDefault delId l
      ⟨some (.list next), calls⟩
    | .single _ => ⟨none, calls⟩

/-- `resource.split(".")` on the character list (JS `String.prototype.split`
with separator `"."`). -/
def splitDotAux : List Char → List Char → List String
  | [], acc => [String.mk acc.reverse]
  | c :: rest, acc =>
    if c = Char.ofNat 46 then String.mk acc.reverse :: splitDotAux rest []
    else splitDotAux rest (c :: acc)

/-- JS `resource.split(".")`. -/
def splitDot (s : String) : List String :=
  splitDotAux s.toList []

/-- JS `resource.split(".").pop()`: the final dot-delimited segment
(`split` never yields an empty array, so the default is never used). -/
def lastSegment (resource : String) : String :=
  (splitDot resource).getLastD ""

/-- Modelled from the spec: the external `pluralize` library's `singular`
function is not part of this repository; the spec fixes its behaviour only
through examples of regular plurals (`"users"` → `"user"`), modelled as
stripping one trailing `s`. -/
def pluralizeSingular (s : String) : String :=
  match s.toList.reverse with
  | [] => s
  | c :: rest => if c = Char.ofNat 115 then String.mk rest.reverse else s

/-- Configuration of one binding: resource name, optional bound id, the
recognized options, and the two transform functions (identity when unset).
The `singular` field stands for the external `pluralize.singular`. -/
structure Cfg where
  resource : String
  id : Option Value
  paramNameOverride : Option String
  params : Obj
  defaultUpdateMethod : UpdateMethod
  transformer : Obj → Obj
  inverseTransformer : Obj → Obj
  singular : String → String

/-- `paramName` (line 86):
`paramNameOverride ?? pluralize.singular(resource.split(".").pop())`. -/
def paramName (cfg : Cfg) : String :=
  cfg.paramNameOverride.getD (cfg.singular (lastSegment cfg.resource))

/-- HTTP verb of an issued request. -/
inductive HttpMethod where
  | get : HttpMethod
  | post : HttpMethod
  | put : HttpMethod
  | delete : HttpMethod
  deriving DecidableEq, Repr

/-- An HTTP request as handed to the external collaborators: the route name
given to `routeFunction`, the route parameters, and the body given to the
HTTP client (none for `delete`). -/
structure Request where
  method : HttpMethod
  route : String
  routeParams : Obj
  body : Option Obj
  deriving DecidableEq, Repr

/-- Route parameters `{[paramName]: id, ...params}` of the update and
destroy routes (spread semantics: `params` may override the id key). -/
def idRouteParams (cfg : Cfg) (targetId : Value) : Obj :=
  assign [(paramName cfg, targetId)] cfg.params

/-- `store` (lines 112-117): POST the inverse-transformed item (note: the
body is not passed through `filter`), then, only when no event override is
active, apply `handleCreated` to the filtered transformed response. -/
def store (cfg : Cfg) (eventOverride : Option String)
    (onCreated : Option (Obj → List Obj → Option (List Obj)))
    (item : Obj) (responseData : Obj) (prev : List Obj) :
    List Request × List Obj :=
  let req : Request :=
    ⟨.post, cfg.resource ++ ".store", cfg.params, some (cfg.inverseTransformer item)⟩
  ([req],
    if activeOverride eventOverride then prev
    else handleCreated onCreated (filter (cfg.transformer responseData)) prev)

/-- `updateList` (lines 119-141).  `on-success`: PUT the filtered
inverse-transformed payload and apply `handleUpdated` to the filtered
transformed response only when no event override is active.  `immediate`:
apply `handleUpdated` to `{id, ...update}` and PUT in the background.
`local-only`: apply `handleUpdated` to `{id, ...update}`; no request. -/
def updateList (cfg : Cfg) (eventOverride : Option String)
    (onUpdated : Option (Obj → RState → Option RState))
    (targetId : Value) (update : Obj) (updateMethodOverride : Option UpdateMethod)
    (responseData : Obj) (prev : RState) :
    List Request × Option RState :=
  let updateMethod := updateMethodOverride.getD cfg.defaultUpdateMethod
  match updateMethod with
  | .onSuccess =>
    let req : Request :=
      ⟨.put, cfg.resource ++ ".update", idRouteParams cfg targetId,
        some (filter (cfg.inverseTransformer update))⟩
    ([req],
      if activeOverride eventOverride then some prev
      else handleUpdated cfg.id onUpdated (filter (cfg.transformer responseData)) prev)
  | .immediate =>
    let req : Request :=
      ⟨.put, cfg.resource ++ ".update", idRouteParams cfg targetId,
        some (filter (cfg.inverseTransformer update))⟩
    ([req], handleUpdated cfg.id onUpdated (assign [("id", targetId)] update) prev)
  | .localOnly =>
    ([], handleUpdated cfg.id onUpdated (assign [("id", targetId)] update) prev)

/-- `updateSingle` (lines 143-145): delegate to `updateList` with the bound
id. -/
def updateSingle (cfg : Cfg) (eventOverride : Option String)
    (onUpdated : Option (Obj → RState → Option RState))
    (update : Obj) (updateMethodOverride : Option UpdateMethod)
    (responseData : Obj) (prev : RState) :
    List Request × Option RState :=
  updateList cfg eventOverride onUpdated (cfg.id.getD Value.undef) update
    updateMethodOverride responseData prev

/-- `destroyList` (lines 147-159): DELETE unless `local-only`; remove
locally through `handleDestroyed` unless an override is active and the
effective method is `on-success`. -/
def destroyList (cfg : Cfg) (eventOverride : Option String)
    (onDestroyed : Option (Value → List Obj → Option (List Obj)))
    (targetId : Value) (updateMethodOverride : Option UpdateMethod)
    (prev : RState) :
    List Request × DestroyedResult :=
  let updateMethod := updateMethodOverride.getD cfg.defaultUpdateMethod
  let reqs : List Request :=
    if updateMethod = .localOnly then []
    else [⟨.delete, cfg.resource ++ ".destroy", idRouteParams cfg targetId, none⟩]
  if !(activeOverride eventOverride) || updateMethod != .onSuccess then
    (reqs, handleDestroyed cfg.id onDestroyed targetId prev)
  else
    (reqs, ⟨some prev, []⟩)

/-- `destroySingle` (line 161): delegate to `destroyList` with the bound
id. -/
def destroySingle (cfg : Cfg) (eventOverride : Option String)
    (onDestroyed : Option (Value → List Obj → Option (List Obj)))
    (updateMethodOverride : Option UpdateMethod) (prev : RState) :
    List Request × DestroyedResult :=
  destroyList cfg eventOverride onDestroyed (cfg.id.getD Value.undef)
    updateMethodOverride prev

/-- A collection binding for resource `"posts"` with all options left at
their defaults. -/
def cfgPosts : Cfg :=
  ⟨"posts", none, none, [], .onSuccess, fun o => o, fun o => o, pluralizeSingular⟩

/-- A singular binding for resource `"posts"` bound to id `1`, all other
options left at their defaults. -/
def cfgPost1 : Cfg :=
  ⟨"posts", some (.num 1), none, [], .onSuccess, fun o => o, fun o => o, pluralizeSingular⟩

/-- A collection binding for resource `"org.users"` with all options left at
their defaults. -/
def cfgOrgUsers : Cfg :=
  ⟨"org.users", none, none, [], .onSuccess, fun o => o, fun o => o, pluralizeSingular⟩

/-! ### Helper lemmas about the object model -/

theorem hasField_eq_isSome (o : Obj) (k : String) :
    hasField o k = (o.find? fun p => p.1 == k).isSome := by
  unfold hasField
  rw [Bool.eq_iff_iff, List.any_eq_true, List.find?_isSome]

theorem jsGet_of_find?_eq_none (o : Obj) (k : String)
    (h : (o.find? fun p => p.1 == k) = none) : jsGet o k = Value.undef := by
  unfold jsGet
  rw [h]
  rfl

theorem jsGet_of_find?_eq_some (o : Obj) (k : String) (p : String × Value)
    (h : (o.find? fun p => p.1 == k) = some p) : jsGet o k = p.2 := by
  unfold jsGet
  rw [h]
  rfl

theorem find?_filter_of_imp {α : Type} (l : List α) (p q : α → Bool)
    (h : ∀ x, p x = true → q x = true) :
    (l.filter q).find? p = l.find? p := by
  induction l with
  | nil => rfl
  | cons a rest ih =>
    cases hq : q a with
    | true =>
      rw [List.filter_cons_of_pos hq]
      cases hp : p a with
      | true => rw [List.find?_cons_of_pos _ hp, List.find?_cons_of_pos _ hp]
      | false =>
        rw [List.find?_cons_of_neg, List.find?_cons_of_neg, ih] <;> simp [hp]
    | false =>
      have hp : p a = false := by
        cases hpa : p a with
        | true => rw [h a hpa] at hq; exact absurd hq (by simp)
        | false => rfl
      rw [List.filter_cons_of_neg, List.find?_cons_of_neg, ih] <;> simp [hp, hq]

theorem jsGet_append (a b : Obj) (k : String) :
    jsGet (a ++ b) k = if hasField a k then jsGet a k else jsGet b k := by
  rw [hasField_eq_isSome]
  cases ha : a.find? (fun p => p.1 == k) with
  | none =>
    unfold jsGet
    rw [List.find?_append, ha]
    simp
  | some p =>
    unfold jsGet
    rw [List.find?_append, ha]
    simp

theorem hasField_map_keyfn (t : Obj) (e : String × Value → Value) (k : String) :
    hasField (t.map fun p => (p.1, e p)) k = hasField t k := by
  have hpred : ((fun p : String × Value => p.1 == k) ∘
      (fun p : String × Value => (p.1, e p))) =
      (fun p : String × Value => p.1 == k) := rfl
  rw [hasField_eq_isSome, hasField_eq_isSome, List.find?_map, hpred]
  cases t.find? (fun p => p.1 == k) <;> rfl

theorem jsGet_map_keyfn (t : Obj) (e : String × Value → Value) (k : String) :
    jsGet (t.map fun p => (p.1, e p)) k =
      (match t.find? (fun p => p.1 == k) with
        | some p => e p
        | none => Value.undef) := by
  have hpred : ((fun p : String × Value => p.1 == k) ∘
      (fun p : String × Value => (p.1, e p))) =
      (fun p : String × Value => p.1 == k) := rfl
  unfold jsGet
  rw [List.find?_map, hpred]
  cases t.find? (fun p => p.1 == k) <;> rfl

/-- The field-level reading of `Object.assign`: a key present in the source
takes the source's value, any other key keeps the target's value. -/
theorem jsGet_assign (t s : Obj) (k : String) :
    jsGet (assign t s) k = if hasField s k then jsGet s k else jsGet t k := by
  rw [assign, jsGet_append,
    hasField_map_keyfn t (fun p => if hasField s p.1 then jsGet s p.1 else p.2) k,
    jsGet_map_keyfn t (fun p => if hasField s p.1 then jsGet s p.1 else p.2) k]
  cases ht : t.find? (fun p => p.1 == k) with
  | none =>
    have htf : hasField t k = false := by rw [hasField_eq_isSome, ht]; rfl
    rw [htf]
    simp only [Bool.false_eq_true, if_false]
    have hfil : jsGet (s.filter fun p => !(hasField t p.1)) k = jsGet s k := by
      unfold jsGet
      rw [find?_filter_of_imp]
      intro p hp
      have hk : p.1 = k := by simpa using hp
      rw [hk, htf]
      rfl
    rw [hfil]
    cases hs : hasField s k with
    | true => simp
    | false =>
      rw [jsGet_of_find?_eq_none t k ht,
        jsGet_of_find?_eq_none s k (by rw [hasField_eq_isSome] at hs; simpa using hs)]
      simp
  | some p =>
    have htt : hasField t k = true := by rw [hasField_eq_isSome, ht]; rfl
    rw [htt]
    simp only [if_true]
    have hk : p.1 = k := by simpa using List.find?_some ht
    rw [jsGet_of_find?_eq_some t k p ht]
    simp [hk]

theorem createdDefault_of_present (item : Obj) (prev : List Obj)
    (h : ∃ s ∈ prev, jsGet s "id" = jsGet item "id") :
    createdDefault item prev = prev := by
  have ha : prev.any (fun s => jsGet s "id" == jsGet item "id") = true := by
    rw [List.any_eq_true]
    obtain ⟨s, hs, he⟩ := h
    exact ⟨s, hs, by simp [he]⟩
  simp [createdDefault, ha]

theorem createdDefault_of_fresh (item : Obj) (prev : List Obj)
    (h : ∀ s ∈ prev, jsGet s "id" ≠ jsGet item "id") :
    createdDefault item prev = prev ++ [item] := by
  have ha : prev.any (fun s => jsGet s "id" == jsGet item "id") = false := by
    cases hb : prev.any (fun s => jsGet s "id" == jsGet item "id") with
    | true =>
      rw [List.any_eq_true] at hb
      obtain ⟨s, hs, he⟩ := hb
      exact absurd (by simpa using he) (h s hs)
    | false => rfl
  simp [createdDefault, ha]

/-! ### Claim theorems -/

/-- Claim C3: the default created reducer is idempotent with respect to the
entity id: if some entity of the collection already carries the payload's id
the state is returned unchanged, otherwise the payload is appended at the
end, preserving the order of the existing entities. -/
theorem createdDefault_idempotent_by_id (item : Obj) (prev : List Obj) :
    ((∃ s ∈ prev, jsGet s "id" = jsGet item "id") →
      createdDefault item prev = prev) ∧
    ((∀ s ∈ prev, jsGet s "id" ≠ jsGet item "id") →
      createdDefault item prev = prev ++ [item]) :=
  ⟨createdDefault_of_present item prev, createdDefault_of_fresh item prev⟩

/-- Claim C3 witness: delivering a `created` payload whose id `1` is already
present leaves the concrete collection unchanged. -/
theorem createdDefault_idempotent_by_id_witness :
    createdDefault [("id", .num 1), ("title", .str "b")]
      [[("id", .num 1), ("title", .str "a")]] =
      [[("id", .num 1), ("title", .str "a")]] :=
  (createdDefault_idempotent_by_id [("id", .num 1), ("title", .str "b")]
    [[("id", .num 1), ("title", .str "a")]]).1 (by decide)

/-- Claim C10: in collection mode the default updated reducer preserves the
length (it never inserts or removes an entity), and a payload whose id
matches no entity leaves the state unchanged. -/
theorem updatedListDefault_preserves_shape (item : Obj) (prev : List Obj) :
    (updatedListDefault item prev).length = prev.length ∧
    ((∀ s ∈ prev, jsGet s "id" ≠ jsGet item "id") →
      updatedListDefault item prev = prev) := by
  constructor
  · simp [updatedListDefault]
  · unfold updatedListDefault
    induction prev with
    | nil => intro _; rfl
    | cons a rest ih =>
      intro h
      have h1 : (jsGet a "id" == jsGet item "id") = false := by
        simpa using h a (List.mem_cons_self a rest)
      rw [List.map_cons, h1]
      simp only [Bool.false_eq_true, if_false]
      rw [ih (fun s hs => h s (List.mem_cons_of_mem a hs))]

/-- Claim C10 witness: a payload with id `3` matching nothing in the
concrete two-entity collection leaves it unchanged. -/
theorem updatedListDefault_preserves_shape_witness :
    updatedListDefault [("id", .num 3), ("title", .str "x")]
      [[("id", .num 1)], [("id", .num 2)]] = [[("id", .num 1)], [("id", .num 2)]] :=
  (updatedListDefault_preserves_shape [("id", .num 3), ("title", .str "x")]
    [[("id", .num 1)], [("id", .num 2)]]).2 (by decide)

/-- Claim C2: in collection mode, `store` does not touch local state when an
event-channel override is active (insertion is deferred to the event
channel); without an override the transformed response is applied through
the created reducer, so with the default reducer and a fresh id the created
entity is appended when the call resolves. -/
theorem store_insertion_iff_no_override (cfg : Cfg) (eo : Option String)
    (onCreated : Option (Obj → List Obj → Option (List Obj)))
    (item responseData : Obj) (prev : List Obj) :
    ((store cfg eo onCreated item responseData prev).2 =
      if activeOverride eo then prev
      else handleCreated onCreated (filter (cfg.transformer responseData)) prev) ∧
    (activeOverride eo = false → onCreated = none →
      (∀ s ∈ prev, jsGet s "id" ≠ jsGet (filter (cfg.transformer responseData)) "id") →
      (store cfg eo onCreated item responseData prev).2 =
        prev ++ [filter (cfg.transformer responseData)]) := by
  constructor
  · rfl
  · intro h1 h2 h3
    simp only [store, h1, Bool.false_eq_true, if_false, h2, handleCreated]
    exact createdDefault_of_fresh _ prev h3

/-- Claim C2 witness (end-to-end scenario 2): `store` on `"posts"` with no
override and response `{id: 2, title: "b"}` appends the new entity to
`[{id: 1, title: "a"}]`. -/
theorem store_insertion_iff_no_override_witness :
    (store cfgPosts none none [("title", .str "b")]
      [("id", .num 2), ("title", .str "b")]
      [[("id", .num 1), ("title", .str "a")]]).2 =
      [[("id", .num 1), ("title", .str "a")], [("id", .num 2), ("title", .str "b")]] := by
  have h := (store_insertion_iff_no_override cfgPosts none none
    [("title", .str "b")] [("id", .num 2), ("title", .str "b")]
    [[("id", .num 1), ("title", .str "a")]]).2 rfl rfl (by decide)
  exact h.trans (by decide)

/-- Claim C5: `destroy` applies the local removal exactly when it is not the
case that an event-channel override is active and the effective method is
`on-success`; in particular `immediate` and `local-only` always remove
locally, override or not. -/
theorem destroy_removes_unless_override_onSuccess (cfg : Cfg) (eo : Option String)
    (onDestroyed : Option (Value → List Obj → Option (List Obj)))
    (targetId : Value) (mo : Option UpdateMethod) (prev : RState) :
    ((destroyList cfg eo onDestroyed targetId mo prev).2 =
      if activeOverride eo && (mo.getD cfg.defaultUpdateMethod == UpdateMethod.onSuccess)
      then ⟨some prev, []⟩
      else handleDestroyed cfg.id onDestroyed targetId prev) ∧
    ((destroyList cfg eo onDestroyed targetId (some .immediate) prev).2 =
      handleDestroyed cfg.id onDestroyed targetId prev) ∧
    ((destroyList cfg eo onDestroyed targetId (some .localOnly) prev).2 =
      handleDestroyed cfg.id onDestroyed targetId prev) := by
  refine ⟨?_, ?_, ?_⟩
  · cases h1 : activeOverride eo <;>
      cases h2 : mo.getD cfg.defaultUpdateMethod <;>
      simp [destroyList, h1, h2]
  · cases h1 : activeOverride eo <;> simp [destroyList, h1]
  · cases h1 : activeOverride eo <;> simp [destroyList, h1]

/-- Claim C4: the default updated reducer in collection mode leaves the
collection length unchanged, leaves every entity whose id differs from the
payload's untouched, and replaces an entity whose id matches by the shallow
merge `Object.assign(entity, payload)`, in which a field listed in the
payload takes the payload's value and every other field keeps the entity's
value.  Under the data-model invariant (unique ids) the matching entity is
unique. -/
theorem updatedListDefault_merges_matching_entity (item : Obj) (prev : List Obj)
    (i : Nat) (k : String) :
    (updatedListDefault item prev).length = prev.length ∧
    (∀ s, prev[i]? = some s → jsGet s "id" ≠ jsGet item "id" →
      (updatedListDefault item prev)[i]? = some s) ∧
    (∀ s, prev[i]? = some s → jsGet s "id" = jsGet item "id" →
      (updatedListDefault item prev)[i]? = some (assign s item) ∧
      (hasField item k = true → jsGet (assign s item) k = jsGet item k) ∧
      (hasField item k = false → jsGet (assign s item) k = jsGet s k)) := by
  refine ⟨by simp [updatedListDefault], ?_, ?_⟩
  · intro s hs hne
    unfold updatedListDefault
    rw [List.getElem?_map, hs]
    have hb : (jsGet s "id" == jsGet item "id") = false := by simpa using hne
    simp only [Option.map_some']
    rw [hb]
    simp
  · intro s hs heq
    refine ⟨?_, ?_, ?_⟩
    · unfold updatedListDefault
      rw [List.getElem?_map, hs]
      simp [heq]
    · intro hk
      rw [jsGet_assign, if_pos hk]
    · intro hk
      rw [jsGet_assign, if_neg (by simp [hk])]

/-- Claim C4 witness: merging the partial payload `{id: 5, name: "x"}` into
`[{id: 5, name: "y", age: 3}]` changes `name` to `"x"`, keeps `age` at `3`,
and the collection cell holds exactly the merged entity. -/
theorem updatedListDefault_merges_matching_entity_witness :
    jsGet (assign [("id", .num 5), ("name", .str "y"), ("age", .num 3)]
      [("id", .num 5), ("name", .str "x")]) "name" = .str "x" ∧
    jsGet (assign [("id", .num 5), ("name", .str "y"), ("age", .num 3)]
      [("id", .num 5), ("name", .str "x")]) "age" = .num 3 ∧
    (updatedListDefault [("id", .num 5), ("name", .str "x")]
      [[("id", .num 5), ("name", .str "y"), ("age", .num 3)]])[0]? =
      some (assign [("id", .num 5), ("name", .str "y"), ("age", .num 3)]
        [("id", .num 5), ("name", .str "x")]) := by
  have h := (updatedListDefault_merges_matching_entity
    [("id", .num 5), ("name", .str "x")]
    [[("id", .num 5), ("name", .str "y"), ("age", .num 3)]] 0 "name").2.2
    [("id", .num 5), ("name", .str "y"), ("age", .num 3)] (by decide) (by decide)
  have hage := (updatedListDefault_merges_matching_entity
    [("id", .num 5), ("name", .str "x")]
    [[("id", .num 5), ("name", .str "y"), ("age", .num 3)]] 0 "age").2.2
    [("id", .num 5), ("name", .str "y"), ("age", .num 3)] (by decide) (by decide)
  refine ⟨(h.2.1 (by decide)).trans (by decide),
    (hage.2.2 (by decide)).trans (by decide), h.1⟩

/-- Claim C1 counterexample: an `on-success` update under an active event
override does NOT apply the transformed response locally — the state is left
unchanged although the default updated reducer would have changed it. -/
theorem update_onSuccess_override_counterexample :
    (updateList cfgPosts (some "chan") none (.num 1) [("title", .str "b")]
      (some .onSuccess) [("id", .num 1), ("title", .str "b")]
      (.list [[("id", .num 1), ("title", .str "a")]])).2 =
      some (.list [[("id", .num 1), ("title", .str "a")]]) ∧
    handleUpdated none none (filter [("id", .num 1), ("title", .str "b")])
      (.list [[("id", .num 1), ("title", .str "a")]]) =
      some (.list [[("id", .num 1), ("title", .str "b")]]) ∧
    some (RState.list [[("id", .num 1), ("title", .str "a")]]) ≠
      some (RState.list [[("id", .num 1), ("title", .str "b")]]) := by decide

/-- Claim C1 as amended: an update issued with the `on-success` method
applies the transformed response through the updated reducer exactly when no
event-channel override is active; with an active override the local
application is skipped, the same as for create and destroy. -/
theorem update_onSuccess_skips_under_override (cfg : Cfg) (eo : Option String)
    (onUpdated : Option (Obj → RState → Option RState)) (targetId : Value)
    (update : Obj) (mo : Option UpdateMethod) (responseData : Obj) (prev : RState)
    (h : mo.getD cfg.defaultUpdateMethod = UpdateMethod.onSuccess) :
    (updateList cfg eo onUpdated targetId update mo responseData prev).2 =
      if activeOverride eo then some prev
      else handleUpdated cfg.id onUpdated (filter (cfg.transformer responseData)) prev := by
  simp only [updateList, h]

/-- Claim C1 witness: the amended statement at the concrete counterexample
inputs. -/
theorem update_onSuccess_skips_under_override_witness :
    (updateList cfgPosts (some "other") none (.num 1) [("title", .str "b")]
      (some .onSuccess) [("id", .num 1), ("title", .str "b")]
      (.list [[("id", .num 1), ("title", .str "a")]])).2 =
      some (.list [[("id", .num 1), ("title", .str "a")]]) := by
  have h := update_onSuccess_skips_under_override cfgPosts (some "other") none
    (.num 1) [("title", .str "b")] (some .onSuccess)
    [("id", .num 1), ("title", .str "b")]
    (.list [[("id", .num 1), ("title", .str "a")]]) rfl
  exact h.trans (by decide)

/-- Claim C6 counterexample: the body `store` hands to the HTTP client is
the inverse-transformed item WITHOUT the `undefined`-stripping `filter`; a
payload with an `undefined` field is sent with that field still present,
although `filter` would have removed it. -/
theorem store_body_unfiltered_counterexample :
    (store cfgPosts none none [("name", Value.undef), ("age", Value.num 5)] [] []).1 =
      [⟨.post, "posts.store", [], some [("name", Value.undef), ("age", Value.num 5)]⟩] ∧
    ([("name", Value.undef), ("age", Value.num 5)] : Obj).any
      (fun p => p.2 == Value.undef) = true ∧
    filter [("name", Value.undef), ("age", Value.num 5)] = [("age", Value.num 5)] := by
  decide

/-- Claim C6 as amended: the bodies sent by update (`on-success` and
`immediate`) are passed through `filter`, which removes exactly the fields
whose value is `undefined` and preserves every other field (including
`null`-valued ones); the body sent by `store` is the inverse-transformed
item, not filtered. -/
theorem outbound_update_bodies_filtered (cfg : Cfg) (eo : Option String)
    (onUpdated : Option (Obj → RState → Option RState))
    (onCreated : Option (Obj → List Obj → Option (List Obj)))
    (targetId : Value) (update item responseData : Obj) (prev : RState)
    (prevList : List Obj) :
    ((updateList cfg eo onUpdated targetId update (some .onSuccess) responseData
        prev).1.map Request.body = [some (filter (cfg.inverseTransformer update))]) ∧
    ((updateList cfg eo onUpdated targetId update (some .immediate) responseData
        prev).1.map Request.body = [some (filter (cfg.inverseTransformer update))]) ∧
    ((store cfg eo onCreated item responseData prevList).1.map Request.body =
      [some (cfg.inverseTransformer item)]) ∧
    (∀ o : Obj, (filter o).all (fun p => p.2 != Value.undef) = true) ∧
    (∀ (o : Obj) (kv : String × Value), kv ∈ o → kv.2 ≠ Value.undef →
      kv ∈ filter o) := by
  refine ⟨by simp [updateList], by simp [updateList], by simp [store], ?_, ?_⟩
  · intro o
    rw [List.all_eq_true]
    intro p hp
    exact (List.mem_filter.mp hp).2
  · intro o kv hm hv
    rw [filter, List.mem_filter]
    exact ⟨hm, by simpa using hv⟩

/-- Claim C6 witness: update with `{name: undefined, age: 5}` sends only
`{age: 5}`, and a `null`-valued field survives the filter. -/
theorem outbound_update_bodies_filtered_witness :
    (updateList cfgPosts none none (.num 1)
      [("name", Value.undef), ("age", Value.num 5)] (some .onSuccess) []
      (.list [])).1.map Request.body = [some [("age", Value.num 5)]] ∧
    ("x", Value.null) ∈ filter [("a", Value.undef), ("x", Value.null)] := by
  have h := outbound_update_bodies_filtered cfgPosts none none none (.num 1)
    [("name", Value.undef), ("age", Value.num 5)] [] [] (.list []) []
  exact ⟨h.1.trans (by decide),
    h.2.2.2.2 [("a", Value.undef), ("x", Value.null)] ("x", Value.null)
      (by decide) (by decide)⟩

/-- Claim C7: an update whose effective method is `local-only` issues no
HTTP request and applies the updated reducer to the partial payload extended
with the target id (`{id, ...update}`; a payload field named `id` would take
precedence, per spread semantics); `updateSingle` does the same with the
bound id. -/
theorem update_localOnly_applies_reducer_no_request (cfg : Cfg) (eo : Option String)
    (onUpdated : Option (Obj → RState → Option RState)) (update : Obj)
    (mo : Option UpdateMethod) (responseData : Obj) (prev : RState)
    (h : mo.getD cfg.defaultUpdateMethod = UpdateMethod.localOnly) :
    (∀ targetId, updateList cfg eo onUpdated targetId update mo responseData prev =
      ([], handleUpdated cfg.id onUpdated (assign [("id", targetId)] update) prev)) ∧
    (updateSingle cfg eo onUpdated update mo responseData prev =
      ([], handleUpdated cfg.id onUpdated
        (assign [("id", cfg.id.getD Value.undef)] update) prev)) := by
  constructor
  · intro targetId
    simp only [updateList, h]
  · simp only [updateSingle, updateList, h]

/-- Claim C7 witness (end-to-end scenario 4): on the singular `"posts"`
binding with id `1`, `update({title: "c"}, "local-only")` issues no request
and synchronously turns the state into the previous entity with `title`
set to `"c"`. -/
theorem update_localOnly_applies_reducer_no_request_witness :
    updateSingle cfgPost1 none none [("title", .str "c")] (some .localOnly) []
      (.single (some [("id", .num 1), ("title", .str "a")])) =
      ([], some (.single (some [("id", .num 1), ("title", .str "c")]))) := by
  have h := (update_localOnly_applies_reducer_no_request cfgPost1 none none
    [("title", .str "c")] (some .localOnly) []
    (.single (some [("id", .num 1), ("title", .str "a")])) rfl).2
  exact h.trans (by decide)

/-- Claim C8: the id route parameter name is the `paramName` option when
given, and otherwise the singularized final dot-delimited segment of the
resource name. -/
theorem paramName_default_and_override (cfg : Cfg) :
    (cfg.paramNameOverride = none →
      paramName cfg = cfg.singular (lastSegment cfg.resource)) ∧
    (∀ p, cfg.paramNameOverride = some p → paramName cfg = p) := by
  constructor
  · intro h
    simp [paramName, h]
  · intro p h
    simp [paramName, h]

/-- Claim C8 witness: resource `"org.users"` with no `paramName` option
yields the parameter name `"user"`. -/
theorem paramName_default_and_override_witness :
    paramName cfgOrgUsers = "user" := by
  have h := (paramName_default_and_override cfgOrgUsers).1 rfl
  exact h.trans (by decide)

/-- Claim C9 counterexample: with a bound id of `0` — falsy in JS, although
an id option IS bound — a delivered `destroyed` event does not null the
state: the source dispatches on truthiness, takes the collection branch, and
throws (`.filter` on a non-array), modelled as a `none` state. -/
theorem destroyed_singular_falsy_id_counterexample :
    handleDestroyed (some (.num 0)) none (.num 2)
      (.single (some [("id", .num 0), ("title", .str "a")])) =
      ⟨none, []⟩ ∧
    (⟨none, []⟩ : DestroyedResult) ≠ ⟨some (.single none), []⟩ := by decide

/-- Claim C9 as amended: in singular mode with a TRUTHY bound id, every
delivered `destroyed` payload nulls the state and invokes the custom
`onDestroyed` handler (when provided) with the delivered id, with no
comparison against the bound id — also when the two ids differ. -/
theorem destroyed_singular_nulls_and_notifies (idv : Value)
    (onDestroyed : Option (Value → List Obj → Option (List Obj)))
    (delId : Value) (prev : RState) (h : idv.truthy = true) :
    handleDestroyed (some idv) onDestroyed delId prev =
      ⟨some (.single none), if onDestroyed.isSome then [delId] else []⟩ := by
  simp [handleDestroyed, truthyOpt, h]

/-- Claim C9 witness: bound id `1`, delivered id `2` (different), a handler
provided: the state is nulled and the handler receives `2`. -/
theorem destroyed_singular_nulls_and_notifies_witness :
    handleDestroyed (some (.num 1)) (some fun _ _ => none) (.num 2)
      (.single (some [("id", .num 1), ("title", .str "a")])) =
      ⟨some (.single none), [.num 2]⟩ := by
  have h := destroyed_singular_nulls_and_notifies (.num 1) (some fun _ _ => none)
    (.num 2) (.single (some [("id", .num 1), ("title", .str "a")])) (by decide)
  exact h.trans rfl

end ReactResourceHook
